import Mathlib

/-!
Shallow embedding of the asynchronous request lifecycle manager of
`src/server/main.py` (irzumjafri/pulse).

The embedded code is the concurrency/lifecycle kernel:
status values and the `active_requests` registry, the completion callback
`_handle_future_completion`, the endpoints `chat_submit`, `record_submit`,
`cancel_request`, `get_status`, one pass of `background_cleanup`, and
`reset_user_context`.  Each Python handler runs under `active_requests_lock`,
so every operation is modelled as a pure function from registry state to
registry state; `datetime.datetime.now()` is an explicit `now : Int`
parameter.  Quote characters appearing inside a few Python message strings
are omitted from the corresponding Lean string literals; no claim depends
on them.
-/

namespace Pulse

/-- Status values stored in `active_requests[...]["status"]` in main.py:
"processing", "cancelling", "completed", "error", "cancelled". -/
inductive Status where
  | processing
  | cancelling
  | completed
  | error
  | cancelled
deriving DecidableEq, Repr

/-- Membership of a status in the Python list `["completed", "error",
"cancelled"]`: the terminal states. -/
def Status.isTerminal : Status → Bool
  | .completed => true
  | .error => true
  | .cancelled => true
  | _ => false

/-- Return value of a finished task function (`process_chat` /
`process_record` in main.py): these always return a dict, which either
contains an "error" key (a controlled, soft failure carrying a message) or
is a successful payload. -/
inductive TaskValue where
  | errDict (msg : String)
  | okDict (payload : String)
deriving DecidableEq, Repr

/-- State of a `concurrent.futures.Future` as observed by the lifecycle
code: not yet started (cancel() would succeed), running (cancel() fails),
or done with a value, a raised exception, or done because it was
cancelled. -/
inductive FutureState where
  | pending
  | running
  | doneValue (v : TaskValue)
  | doneRaised (exnMsg : String)
  | doneCancelled
deriving DecidableEq, Repr

/-- Python `future.done()`. -/
def FutureState.done : FutureState → Bool
  | .pending => false
  | .running => false
  | _ => true

/-- Python `future.cancelled()`. -/
def FutureState.isCancelled : FutureState → Bool
  | .doneCancelled => true
  | _ => false

/-- Python `future.cancel()`: returns whether cancellation was accepted
(true only when the task had not started) together with the future state
after the call. -/
def FutureState.cancelAttempt : FutureState → Bool × FutureState
  | .pending => (true, .doneCancelled)
  | fs => (false, fs)

/-- Value stored in `active_requests[...]["result"]` once set: either a
plain message string (cancellation notices, error messages) or the
successful result dict of the task. -/
inductive ResultVal where
  | message (s : String)
  | data (v : TaskValue)
deriving DecidableEq, Repr

/-- One entry of the `active_requests` dict in main.py:
`{"future": ..., "status": ..., "result": ..., "cancel_requested": ...,
"user_id": ..., "timestamp": ...}`.  `result` is `None` (here `none`)
until a terminal state is reached. -/
structure RequestInfo where
  future : FutureState
  status : Status
  result : Option ResultVal
  cancel_requested : Bool
  user_id : String
  timestamp : Int
deriving DecidableEq, Repr

/-- The `active_requests` dict, as an association list from request id to
record.  Python dict keys are unique; theorems that need uniqueness take a
`Nodup` hypothesis on the key list. -/
abbrev Registry := List (String × RequestInfo)

/-- Python `request_id in active_requests` / `active_requests[request_id]`
combined: the value stored at a key. -/
def lookupR : Registry → String → Option RequestInfo
  | [], _ => none
  | (k, v) :: rest, rid => if k = rid then some v else lookupR rest rid

/-- Mutation `active_requests[rid] = info`: replaces the first binding of
the key, appending when absent. -/
def setR : Registry → String → RequestInfo → Registry
  | [], rid, info => [(rid, info)]
  | (k, v) :: rest, rid, info =>
      if k = rid then (rid, info) :: rest else (k, v) :: setR rest rid info

/-- Python `del active_requests[rid]`: removes the binding of the key. -/
def delR : Registry → String → Registry
  | [], _ => []
  | (k, v) :: rest, rid => if k = rid then delR rest rid else (k, v) :: delR rest rid

/-- Key list of a registry. -/
def keysR (reg : Registry) : List String :=
  (reg : List (String × RequestInfo)).map Prod.fst

/-- Config constant `STALE_REQUEST_THRESHOLD_SECONDS = 300` of main.py. -/
def STALE_REQUEST_THRESHOLD_SECONDS : Int := 300

/-- Config constant `PROCESSING_TIMEOUT_SECONDS = 600` of main.py. -/
def PROCESSING_TIMEOUT_SECONDS : Int := 600

/-- Message stored by the callback when a task is marked cancelled. -/
def cancelledMsg : String := "Request was cancelled."

/-- Message stored by the callback in its `except CancelledError` branch. -/
def cancelledLateMsg : String := "Request was cancelled before completion."

/-- Message stored by `background_cleanup` on a processing timeout. -/
def timeoutMsg : String := "Request timed out due to excessive processing time."

/-- Embedding of `_handle_future_completion(request_id, future)`
(main.py lines 917-976).  The `future` argument of the Python callback is
the same object as `active_requests[request_id]["future"]`, so it is read
from the record here.  The executor invokes the callback only after the
future is done; on a pending/running future the embedded `else` branch
leaves the record's fields unchanged (Python there would block in
`future.result()`, a state the callback is never invoked in). -/
def handleFutureCompletion (request_id : String) (now : Int) (reg : Registry) :
    Registry :=
  match lookupR reg request_id with
  | none => reg
  | some info =>
      if info.status = .processing ∨ info.status = .cancelling then
        let info1 :=
          if info.future.isCancelled || info.cancel_requested then
            { info with status := .cancelled, result := some (.message cancelledMsg) }
          else
            match info.future with
            | .doneValue (.errDict m) =>
                { info with status := .error, result := some (.message m) }
            | .doneValue (.okDict p) =>
                { info with status := .completed, result := some (.data (.okDict p)) }
            | .doneRaised m =>
                { info with status := .error, result := some (.message ("Internal server error during task execution: " ++ m)) }
            | .doneCancelled =>
                { info with status := .cancelled, result := some (.message cancelledLateMsg) }
            | .pending => info
            | .running => info
        setR reg request_id { info1 with timestamp := now }
      else
        reg

/-- Outcome of `cancel_request`: the HTTP status code and the message of
the JSON body. -/
structure CancelResponse where
  code : Nat
  message : String
deriving DecidableEq, Repr

/-- Embedding of the `/cancel/<request_id>` handler `cancel_request`
(main.py lines 1061-1121). -/
def cancelRequest (request_id : String) (now : Int) (reg : Registry) :
    CancelResponse × Registry :=
  match lookupR reg request_id with
  | none => (⟨404, "Request ID not found."⟩, reg)
  | some info =>
      match info.status with
      | .processing =>
          let info1 := { info with cancel_requested := true }
          if ¬ info1.future.done then
            let att := info1.future.cancelAttempt
            if att.1 then
              (⟨200, "Cancellation requested. Attempting interruption (success=True). Final status pending."⟩,
                setR reg request_id
                  { info1 with future := att.2, status := .cancelling, timestamp := now })
            else
              (⟨200, "Cancellation requested, but task could not be interrupted (already running). Task will complete or error out normally."⟩,
                setR reg request_id { info1 with future := att.2 })
          else
            (⟨400, "Cancellation requested, but task already finished with final status processing."⟩,
              setR reg request_id info1)
      | .cancelling => (⟨200, "Cancellation already in progress."⟩, reg)
      | s =>
          (⟨400, "Request already reached a final state (" ++ statusText s ++ "). Cannot cancel."⟩,
            reg)
where
  /-- Python string value of a status, used in the f-string of the
  terminal branch. -/
  statusText : Status → String
    | .processing => "processing"
    | .cancelling => "cancelling"
    | .completed => "completed"
    | .error => "error"
    | .cancelled => "cancelled"

/-- JSON body returned by the `/status/<request_id>` handler, by shape.
For the three terminal shapes the payload field carries
`request_info.get("result")`; in the Python `error` branch the `.get`
default "Unknown error" is dead code because the "result" key is always
present. -/
inductive StatusResponse where
  | notFound
  | processingR
  | cancellingR
  | completedR (data : Option ResultVal)
  | errorR (err : Option ResultVal)
  | cancelledR (msg : Option ResultVal)
deriving DecidableEq, Repr

/-- Embedding of the `/status/<request_id>` handler `get_status`
(main.py lines 1124-1178): returns the response and the registry after the
handler's cleanup of retrieved terminal entries. -/
def getStatus (request_id : String) (reg : Registry) : StatusResponse × Registry :=
  match lookupR reg request_id with
  | none => (.notFound, reg)
  | some info =>
      match info.status with
      | .completed => (.completedR info.result, delR reg request_id)
      | .error => (.errorR info.result, delR reg request_id)
      | .cancelled => (.cancelledR info.result, delR reg request_id)
      | .cancelling => (.cancellingR, reg)
      | .processing => (.processingR, reg)

/-- Update applied by one `background_cleanup` iteration to a single
record (the `elif` timeout branch, main.py lines 1216-1224): a record in
processing/cancelling older than `PROCESSING_TIMEOUT_SECONDS` is marked as
a timed-out error with its timestamp refreshed; every other record is left
unchanged. -/
def timeoutStep (now : Int) (info : RequestInfo) : RequestInfo :=
  if PROCESSING_TIMEOUT_SECONDS > 0 ∧
      (info.status = .processing ∨ info.status = .cancelling) ∧
      now - info.timestamp > PROCESSING_TIMEOUT_SECONDS then
    { info with status := .error, result := some (.message timeoutMsg), timestamp := now }
  else
    info

/-- Predicate of the staleness branch of `background_cleanup` (main.py
lines 1210-1213): terminal and older than the staleness threshold. -/
def isStaleTerminal (now : Int) (info : RequestInfo) : Bool :=
  info.status.isTerminal && now - info.timestamp > STALE_REQUEST_THRESHOLD_SECONDS

/-- Embedding of one pass of the `background_cleanup` loop body (main.py
lines 1197-1232).  The Python loop first walks all records, collecting
terminal-and-stale ids into `ids_to_remove` and applying the timeout
transition to old non-terminal records, then deletes the collected ids.
Each record is visited once and the two branches are exclusive per record,
so the pass is the timeout map followed by removal of the ids collected
from the original records. -/
def janitorPass (now : Int) (reg : Registry) : Registry :=
  let idsToRemove :=
    ((reg.filter fun p => isStaleTerminal now p.2).map Prod.fst)
  (reg.map fun p => (p.1, timeoutStep now p.2)).filter
    fun p => !(idsToRemove.contains p.1)

/-- Fields of the JSON submission body read by `chat_submit` /
`record_submit`: `data.get("user_id")` and `data.get("message")`.  A `none`
field models an absent key. -/
structure SubmitData where
  user_id : Option String
  message : Option String
deriving DecidableEq, Repr

/-- Python truthiness of `data.get(key)` for a string-or-absent field:
`None` and the empty string are falsy. -/
def truthy : Option String → Bool
  | none => false
  | some s => s ≠ ""

/-- Response of `chat_submit` / `record_submit` by shape: 202 with the
allocated request id, 400 with a validation message, or the 500 catch-all
(reached e.g. when the body is not JSON). -/
inductive SubmitResponse where
  | accepted (request_id : String)
  | clientError (msg : String)
  | serverError (msg : String)
deriving DecidableEq, Repr

/-- HTTP status code of a submit response. -/
def SubmitResponse.code : SubmitResponse → Nat
  | .accepted _ => 202
  | .clientError _ => 400
  | .serverError _ => 500

/-- Embedding of the `/chat` handler `chat_submit` (main.py lines
981-1018).  `request_id` stands for the generated uuid, `fut` for the
future returned by `executor.submit(process_chat, ...)`; a `none` body
models a non-JSON request, which raises and lands in the 500 handler. -/
def chatSubmit (request_id : String) (body : Option SubmitData) (now : Int)
    (fut : FutureState) (reg : Registry) : SubmitResponse × Registry :=
  match body with
  | none => (.serverError "Failed to initiate chat request: Request body must be JSON.", reg)
  | some data =>
      if ¬ truthy data.user_id then (.clientError "user_id is required", reg)
      else if ¬ truthy data.message then (.clientError "message is required", reg)
      else
        (.accepted request_id,
          setR reg request_id
            { future := fut, status := .processing, result := none,
              cancel_requested := false,
              user_id := data.user_id.getD "", timestamp := now })

/-- Embedding of the `/record` handler `record_submit` (main.py lines
1021-1058); identical lifecycle logic to `chat_submit` up to message
wording and the submitted task function. -/
def recordSubmit (request_id : String) (body : Option SubmitData) (now : Int)
    (fut : FutureState) (reg : Registry) : SubmitResponse × Registry :=
  match body with
  | none => (.serverError "Failed to initiate record request: Request body must be JSON.", reg)
  | some data =>
      if ¬ truthy data.user_id then (.clientError "user_id is required", reg)
      else if ¬ truthy data.message then (.clientError "message (note content) is required", reg)
      else
        (.accepted request_id,
          setR reg request_id
            { future := fut, status := .processing, result := none,
              cancel_requested := false,
              user_id := data.user_id.getD "", timestamp := now })

/-- One entry of the `user_contexts` dict of main.py. -/
structure UserContext where
  patient_id : Option String
  patient_details : Option String
  summarized_notes : Option String
  chat_history : List (String × String)
deriving DecidableEq, Repr

/-- The empty context written by `reset_user_context` (main.py lines
1303-1308). -/
def emptyContext : UserContext :=
  { patient_id := none, patient_details := none, summarized_notes := none,
    chat_history := [] }

/-- The `user_contexts` dict, as an association list keyed by user id. -/
abbrev Contexts := List (String × UserContext)

/-- Value stored at a key of `user_contexts`. -/
def lookupC : Contexts → String → Option UserContext
  | [], _ => none
  | (k, v) :: rest, uid => if k = uid then some v else lookupC rest uid

/-- Mutation `user_contexts[uid] = ctx`. -/
def setC : Contexts → String → UserContext → Contexts
  | [], uid, ctx => [(uid, ctx)]
  | (k, v) :: rest, uid, ctx =>
      if k = uid then (uid, ctx) :: rest else (k, v) :: setC rest uid ctx

/-- Per-id cancellation step of `reset_user_context` (main.py lines
1270-1294): re-reads the record under the lock; processing records get
`cancel_requested = True` and, when `future.cancel()` is accepted, move to
cancelling with a refreshed timestamp; cancelling records get the flag
re-affirmed; terminal or vanished records are untouched. -/
def resetCancelStep (now : Int) (reg : Registry) (rid : String) : Registry :=
  match lookupR reg rid with
  | none => reg
  | some info =>
      match info.status with
      | .processing =>
          let info1 := { info with cancel_requested := true }
          if ¬ info1.future.done then
            let att := info1.future.cancelAttempt
            if att.1 then
              setR reg rid { info1 with future := att.2, status := .cancelling, timestamp := now }
            else
              setR reg rid { info1 with future := att.2 }
          else
            setR reg rid info1
      | .cancelling => setR reg rid { info with cancel_requested := true }
      | _ => reg

/-- Embedding of the `/reset_user_context` handler (main.py lines
1246-1315) for a validated `user_id`: collects the ids of the owner's
processing/cancelling requests, applies the cancellation step to each, and
then resets the owner's context to the empty one when a context for that
owner exists (a missing context is reported, not created). -/
def resetUserContext (user_id : String) (now : Int) (reg : Registry)
    (ctxs : Contexts) : Registry × Contexts :=
  let idsToCancel :=
    ((reg.filter fun p =>
        p.2.user_id = user_id ∧ (p.2.status = .processing ∨ p.2.status = .cancelling)).map
      Prod.fst)
  let reg1 := idsToCancel.foldl (resetCancelStep now) reg
  let ctxs1 :=
    if (lookupC ctxs user_id).isSome then setC ctxs user_id emptyContext else ctxs
  (reg1, ctxs1)

/-! Association-list lemmas about `lookupR`, `setR`, `delR`. -/

theorem lookupR_cons (k : String) (v : RequestInfo) (tl : Registry) (rid : String) :
    lookupR ((k, v) :: tl) rid = if k = rid then some v else lookupR tl rid := rfl

theorem setR_cons (k : String) (v : RequestInfo) (tl : Registry) (rid : String)
    (info : RequestInfo) :
    setR ((k, v) :: tl) rid info =
      if k = rid then (rid, info) :: tl else (k, v) :: setR tl rid info := rfl

theorem delR_cons (k : String) (v : RequestInfo) (tl : Registry) (rid : String) :
    delR ((k, v) :: tl) rid =
      if k = rid then delR tl rid else (k, v) :: delR tl rid := rfl

theorem lookupR_setR_self (reg : Registry) (rid : String) (info : RequestInfo) :
    lookupR (setR reg rid info) rid = some info := by
  induction reg with
  | nil => simp [setR, lookupR]
  | cons hd tl ih =>
      obtain ⟨k, v⟩ := hd
      by_cases h : k = rid <;> simp [setR_cons, lookupR_cons, h, ih]

theorem lookupR_setR_ne (reg : Registry) (rid rid' : String) (info : RequestInfo)
    (h : rid' ≠ rid) : lookupR (setR reg rid info) rid' = lookupR reg rid' := by
  have h2 : ¬ rid = rid' := fun he => h he.symm
  induction reg with
  | nil => simp [setR, lookupR, h2]
  | cons hd tl ih =>
      obtain ⟨k, v⟩ := hd
      by_cases hk : k = rid
      · subst hk
        simp [setR_cons, lookupR_cons, h2]
      · simp [setR_cons, lookupR_cons, hk, ih]

theorem lookupR_delR_self (reg : Registry) (rid : String) :
    lookupR (delR reg rid) rid = none := by
  induction reg with
  | nil => simp [delR, lookupR]
  | cons hd tl ih =>
      obtain ⟨k, v⟩ := hd
      by_cases h : k = rid <;> simp [delR_cons, lookupR_cons, h, ih]

theorem mem_of_lookupR (reg : Registry) (rid : String) (info : RequestInfo)
    (h : lookupR reg rid = some info) : (rid, info) ∈ reg := by
  induction reg with
  | nil => simp [lookupR] at h
  | cons hd tl ih =>
      obtain ⟨k, v⟩ := hd
      by_cases hk : k = rid
      · rw [lookupR_cons, if_pos hk, Option.some.injEq] at h
        rw [← h, ← hk]
        exact List.mem_cons_self _ _
      · rw [lookupR_cons, if_neg hk] at h
        exact List.mem_cons_of_mem _ (ih h)

theorem lookupR_of_mem_nodup (reg : Registry) (rid : String) (info : RequestInfo)
    (hnd : (keysR reg).Nodup) (h : (rid, info) ∈ reg) :
    lookupR reg rid = some info := by
  induction reg with
  | nil => simp at h
  | cons hd tl ih =>
      obtain ⟨k, v⟩ := hd
      rw [keysR, List.map_cons, List.nodup_cons] at hnd
      rcases List.mem_cons.mp h with h1 | h1
      · rw [Prod.mk.injEq] at h1
        rw [lookupR_cons, if_pos h1.1.symm, h1.2]
      · have hk : ¬ k = rid := by
          intro he
          subst he
          exact hnd.1 (List.mem_map.mpr ⟨(k, info), h1, rfl⟩)
        rw [lookupR_cons, if_neg hk]
        exact ih hnd.2 h1

theorem mem_setR (reg : Registry) (rid : String) (info : RequestInfo)
    (p : String × RequestInfo) (h : p ∈ setR reg rid info) :
    p ∈ reg ∨ p = (rid, info) := by
  induction reg with
  | nil =>
      rw [show setR [] rid info = [(rid, info)] from rfl] at h
      exact Or.inr (List.mem_singleton.mp h)
  | cons hd tl ih =>
      obtain ⟨k, v⟩ := hd
      by_cases hk : k = rid
      · rw [setR_cons, if_pos hk] at h
        rcases List.mem_cons.mp h with h1 | h1
        · exact Or.inr h1
        · exact Or.inl (List.mem_cons_of_mem _ h1)
      · rw [setR_cons, if_neg hk] at h
        rcases List.mem_cons.mp h with h1 | h1
        · exact Or.inl (h1 ▸ List.mem_cons_self _ _)
        · rcases ih h1 with h2 | h2
          · exact Or.inl (List.mem_cons_of_mem _ h2)
          · exact Or.inr h2

theorem mem_delR (reg : Registry) (rid : String) (p : String × RequestInfo)
    (h : p ∈ delR reg rid) : p ∈ reg := by
  induction reg with
  | nil =>
      rw [show delR [] rid = [] from rfl] at h
      simp at h
  | cons hd tl ih =>
      obtain ⟨k, v⟩ := hd
      by_cases hk : k = rid
      · rw [delR_cons, if_pos hk] at h
        exact List.mem_cons_of_mem _ (ih h)
      · rw [delR_cons, if_neg hk] at h
        rcases List.mem_cons.mp h with h1 | h1
        · exact h1 ▸ List.mem_cons_self _ _
        · exact List.mem_cons_of_mem _ (ih h1)

theorem lookupR_map_snd (f : RequestInfo → RequestInfo) (reg : Registry) (rid : String) :
    lookupR (reg.map fun p => (p.1, f p.2)) rid = (lookupR reg rid).map f := by
  induction reg with
  | nil => simp [lookupR]
  | cons hd tl ih =>
      obtain ⟨k, v⟩ := hd
      by_cases h : k = rid <;> simp [lookupR_cons, h, ih]

theorem lookupR_filter_key (pred : String → Bool) (reg : Registry) (rid : String) :
    lookupR (reg.filter fun p => pred p.1) rid =
      if pred rid then lookupR reg rid else none := by
  induction reg with
  | nil => simp [lookupR]
  | cons hd tl ih =>
      obtain ⟨k, v⟩ := hd
      by_cases h : k = rid
      · subst h
        by_cases hp : pred k <;> simp [List.filter_cons, lookupR_cons, hp, ih]
      · by_cases hp : pred k <;> simp [List.filter_cons, lookupR_cons, h, hp, ih]

/-- Characterization of one janitor pass at a single key: if the key was
collected as stale-terminal it is gone, otherwise its record went through
the timeout step. -/
theorem lookupR_janitorPass (now : Int) (reg : Registry) (rid : String) :
    lookupR (janitorPass now reg) rid =
      if ((reg.filter fun p => isStaleTerminal now p.2).map Prod.fst).contains rid
      then none
      else (lookupR reg rid).map (timeoutStep now) := by
  unfold janitorPass
  rw [lookupR_filter_key (fun k =>
    !(((reg.filter fun p => isStaleTerminal now p.2).map Prod.fst).contains k))]
  by_cases h : ((reg.filter fun p => isStaleTerminal now p.2).map Prod.fst).contains rid
  · rw [if_pos h, if_neg (by rw [h]; simp)]
  · rw [if_neg h, if_pos (by rw [Bool.not_eq_true] at h; rw [h]; rfl),
      lookupR_map_snd]

/-! Sample registry entries used to instantiate the lifecycle theorems on
concrete inputs. -/

/-- A processing record whose future finished with a successful value. -/
def sampleDone : RequestInfo :=
  { future := .doneValue (.okDict "ans"), status := .processing, result := none,
    cancel_requested := false, user_id := "nurse1", timestamp := 0 }

/-- A processing record whose future has not started yet. -/
def samplePending : RequestInfo :=
  { sampleDone with future := .pending }

/-- A record that completed and stores its result. -/
def sampleCompleted : RequestInfo :=
  { sampleDone with status := .completed, result := some (.data (.okDict "ans")) }

/-- C1: once a record's status is terminal (completed, error, or
cancelled), neither the completion callback, nor request_cancel, nor a
janitor pass changes it to a different status; the callback invoked on a
record whose status is outside processing/cancelling performs no mutation
at all (the registry is returned unchanged), and the janitor either leaves
a terminal record exactly as it is or removes it. -/
theorem C1_terminal_status_is_sink (reg : Registry) (rid : String)
    (info : RequestInfo) (now : Int)
    (hl : lookupR reg rid = some info) (ht : info.status.isTerminal = true) :
    handleFutureCompletion rid now reg = reg ∧
    (cancelRequest rid now reg).2 = reg ∧
    (lookupR (janitorPass now reg) rid = none ∨
      lookupR (janitorPass now reg) rid = some info) := by
  have hnp : ¬ (info.status = .processing ∨ info.status = .cancelling) := by
    cases s : info.status <;> simp_all [Status.isTerminal]
  refine ⟨?_, ?_, ?_⟩
  · simp only [handleFutureCompletion, hl, if_neg hnp]
  · cases s : info.status
    · exact absurd (Or.inl s) hnp
    · exact absurd (Or.inr s) hnp
    · simp [cancelRequest, hl, s]
    · simp [cancelRequest, hl, s]
    · simp [cancelRequest, hl, s]
  · rw [lookupR_janitorPass]
    by_cases h : ((reg.filter fun p => isStaleTerminal now p.2).map Prod.fst).contains rid
    · rw [if_pos h]
      exact Or.inl rfl
    · rw [if_neg h, hl]
      refine Or.inr ?_
      have hts : timeoutStep now info = info := by
        unfold timeoutStep
        rw [if_neg (by intro hc; exact hnp hc.2.1)]
      simp [hts]

/-- C1 witness: a concrete completed record is untouched by the callback,
the cancel endpoint, and the janitor. -/
theorem C1_witness :
    lookupR [("r1", sampleCompleted)] "r1" = some sampleCompleted ∧
    sampleCompleted.status.isTerminal = true ∧
    (handleFutureCompletion "r1" 5 [("r1", sampleCompleted)] = [("r1", sampleCompleted)] ∧
     (cancelRequest "r1" 5 [("r1", sampleCompleted)]).2 = [("r1", sampleCompleted)] ∧
     (lookupR (janitorPass 5 [("r1", sampleCompleted)]) "r1" = none ∨
      lookupR (janitorPass 5 [("r1", sampleCompleted)]) "r1" = some sampleCompleted)) :=
  ⟨by decide, by decide,
    C1_terminal_status_is_sink [("r1", sampleCompleted)] "r1" sampleCompleted 5
      (by decide) (by decide)⟩

/-- C2: polling a record in a terminal state returns the stored status
together with the stored result (data for completed, error message for
error, cancellation message for cancelled) and deletes the entry, so a
second poll of the same id answers not-found; polling a processing or
cancelling record reports that status and leaves the registry unchanged. -/
theorem C2_poll_consumes_terminal (reg : Registry) (rid : String)
    (info : RequestInfo) (hl : lookupR reg rid = some info) :
    (info.status = .completed →
      getStatus rid reg = (.completedR info.result, delR reg rid) ∧
      (getStatus rid (delR reg rid)).1 = .notFound) ∧
    (info.status = .error →
      getStatus rid reg = (.errorR info.result, delR reg rid) ∧
      (getStatus rid (delR reg rid)).1 = .notFound) ∧
    (info.status = .cancelled →
      getStatus rid reg = (.cancelledR info.result, delR reg rid) ∧
      (getStatus rid (delR reg rid)).1 = .notFound) ∧
    (info.status = .processing → getStatus rid reg = (.processingR, reg)) ∧
    (info.status = .cancelling → getStatus rid reg = (.cancellingR, reg)) := by
  have hdel : (getStatus rid (delR reg rid)).1 = .notFound := by
    unfold getStatus
    rw [lookupR_delR_self]
  exact ⟨fun h => ⟨by simp [getStatus, hl, h], hdel⟩,
    fun h => ⟨by simp [getStatus, hl, h], hdel⟩,
    fun h => ⟨by simp [getStatus, hl, h], hdel⟩,
    fun h => by simp [getStatus, hl, h],
    fun h => by simp [getStatus, hl, h]⟩

/-- C2 witness: first poll of the completed record returns the data and
removes it; the second poll answers not-found. -/
theorem C2_witness :
    lookupR [("r1", sampleCompleted)] "r1" = some sampleCompleted ∧
    sampleCompleted.status = .completed ∧
    (getStatus "r1" [("r1", sampleCompleted)] =
        (.completedR sampleCompleted.result, delR [("r1", sampleCompleted)] "r1") ∧
      (getStatus "r1" (delR [("r1", sampleCompleted)] "r1")).1 = .notFound) :=
  ⟨by decide, by decide,
    (C2_poll_consumes_terminal [("r1", sampleCompleted)] "r1" sampleCompleted
      (by decide)).1 (by decide)⟩

/-- C3 counterexample: a processing record whose future already finished
with a successful value.  request_cancel answers with the already-finished
outcome (code 400), yet it mutates the record — cancel_requested becomes
true — and as a consequence the completion callback later stores
`cancelled`, so the poll returns the cancellation message instead of the
unit's stored result.  This refutes the claim that request_cancel on a
request whose unit has already completed performs no mutation and leaves
the polled result unaffected. -/
theorem C3_counterexample :
    (cancelRequest "r1" 1 [("r1", sampleDone)]).1.code = 400 ∧
    lookupR (cancelRequest "r1" 1 [("r1", sampleDone)]).2 "r1" =
      some { sampleDone with cancel_requested := true } ∧
    (cancelRequest "r1" 1 [("r1", sampleDone)]).2 ≠ [("r1", sampleDone)] ∧
    (getStatus "r1"
        (handleFutureCompletion "r1" 2 (cancelRequest "r1" 1 [("r1", sampleDone)]).2)).1 =
      .cancelledR (some (.message cancelledMsg)) := by
  decide

/-- C3 amended: for every request whose record is already terminal (its
completion callback has run), request_cancel yields the already-finished
outcome (code 400 with the final-state message) and performs no mutation —
the registry is returned unchanged, so status, stored result and
cancel_requested are untouched and any later poll is unaffected.  When the
unit has finished but the callback has not yet run (status still
processing), request_cancel also reports the task as finished but does set
cancel_requested (see the counterexample and C10). -/
theorem C3_amended_terminal_cancel_no_mutation (reg : Registry) (rid : String)
    (info : RequestInfo) (now : Int)
    (hl : lookupR reg rid = some info) (ht : info.status.isTerminal = true) :
    cancelRequest rid now reg =
      (⟨400, "Request already reached a final state (" ++
          cancelRequest.statusText info.status ++ "). Cannot cancel."⟩, reg) ∧
    ∀ rid2, getStatus rid2 (cancelRequest rid now reg).2 = getStatus rid2 reg := by
  have key : cancelRequest rid now reg =
      (⟨400, "Request already reached a final state (" ++
          cancelRequest.statusText info.status ++ "). Cannot cancel."⟩, reg) := by
    cases s : info.status
    · rw [s] at ht
      simp [Status.isTerminal] at ht
    · rw [s] at ht
      simp [Status.isTerminal] at ht
    · simp [cancelRequest, hl, s]
    · simp [cancelRequest, hl, s]
    · simp [cancelRequest, hl, s]
  exact ⟨key, fun rid2 => by rw [key]⟩

/-- C3 amended witness: cancelling the concrete completed record leaves
the registry untouched and answers 400. -/
theorem C3_amended_witness :
    lookupR [("r1", sampleCompleted)] "r1" = some sampleCompleted ∧
    sampleCompleted.status.isTerminal = true ∧
    (cancelRequest "r1" 9 [("r1", sampleCompleted)] =
        (⟨400, "Request already reached a final state (" ++
            cancelRequest.statusText sampleCompleted.status ++ "). Cannot cancel."⟩,
          [("r1", sampleCompleted)]) ∧
      ∀ rid2, getStatus rid2 (cancelRequest "r1" 9 [("r1", sampleCompleted)]).2 =
        getStatus rid2 [("r1", sampleCompleted)]) :=
  ⟨by decide, by decide,
    C3_amended_terminal_cancel_no_mutation [("r1", sampleCompleted)] "r1"
      sampleCompleted 9 (by decide) (by decide)⟩

/-- C4: request_cancel on a processing record whose unit has not started
(pending future, so the executor accepts the cancellation) answers 200,
sets cancel_requested and moves the record to cancelling; the completion
callback then observes the cancelled future and finishes the record as
cancelled with the cancellation message — never as completed or error. -/
theorem C4_cancel_unstarted_ends_cancelled (reg : Registry) (rid : String)
    (info : RequestInfo) (now now2 : Int)
    (hl : lookupR reg rid = some info)
    (hp : info.status = .processing)
    (hf : info.future = .pending) :
    (cancelRequest rid now reg).1.code = 200 ∧
    lookupR (cancelRequest rid now reg).2 rid =
      some { info with cancel_requested := true, future := .doneCancelled, status := .cancelling, timestamp := now } ∧
    lookupR (handleFutureCompletion rid now2 (cancelRequest rid now reg).2) rid =
      some { info with cancel_requested := true, future := .doneCancelled, status := .cancelled, result := some (.message cancelledMsg), timestamp := now2 } := by
  have h2 : (cancelRequest rid now reg).2 =
      setR reg rid { info with cancel_requested := true, future := .doneCancelled, status := .cancelling, timestamp := now } := by
    simp [cancelRequest, hl, hp, hf, FutureState.done, FutureState.cancelAttempt]
  refine ⟨?_, ?_, ?_⟩
  · simp [cancelRequest, hl, hp, hf, FutureState.done, FutureState.cancelAttempt]
  · rw [h2, lookupR_setR_self]
  · rw [h2]
    have hlook := lookupR_setR_self reg rid
      { info with cancel_requested := true, future := FutureState.doneCancelled, status := Status.cancelling, timestamp := now }
    simp [handleFutureCompletion, hlook, FutureState.isCancelled, lookupR_setR_self]

/-- C4 witness: the concrete not-yet-started record ends cancelled. -/
theorem C4_witness :
    lookupR [("r1", samplePending)] "r1" = some samplePending ∧
    samplePending.status = .processing ∧
    samplePending.future = .pending ∧
    ((cancelRequest "r1" 1 [("r1", samplePending)]).1.code = 200 ∧
     lookupR (cancelRequest "r1" 1 [("r1", samplePending)]).2 "r1" =
       some { samplePending with cancel_requested := true, future := .doneCancelled, status := .cancelling, timestamp := 1 } ∧
     lookupR (handleFutureCompletion "r1" 2
        (cancelRequest "r1" 1 [("r1", samplePending)]).2) "r1" =
       some { samplePending with cancel_requested := true, future := .doneCancelled, status := .cancelled, result := some (.message cancelledMsg), timestamp := 2 }) :=
  ⟨by decide, by decide, by decide,
    C4_cancel_unstarted_ends_cancelled [("r1", samplePending)] "r1" samplePending 1 2
      (by decide) (by decide) (by decide)⟩

/-- A processing record whose future is running (started, not finished). -/
def sampleRunning : RequestInfo :=
  { sampleDone with future := .running }

/-- C5: in one janitor pass, every processing/cancelling record older than
the processing timeout is force-transitioned to error with the timeout
message and its timestamp refreshed to now, and it is not removed in the
same pass; every terminal record older than the staleness threshold is
removed. -/
theorem C5_janitor_timeout_and_sweep (reg : Registry) (rid : String)
    (info : RequestInfo) (now : Int)
    (hnd : (keysR reg).Nodup)
    (hl : lookupR reg rid = some info) :
    ((info.status = .processing ∨ info.status = .cancelling) →
      now - info.timestamp > PROCESSING_TIMEOUT_SECONDS →
      lookupR (janitorPass now reg) rid =
        some { info with status := .error, result := some (.message timeoutMsg), timestamp := now }) ∧
    (info.status.isTerminal = true →
      now - info.timestamp > STALE_REQUEST_THRESHOLD_SECONDS →
      lookupR (janitorPass now reg) rid = none) := by
  constructor
  · intro hs hold
    have hnt : info.status.isTerminal = false := by
      rcases hs with hs | hs <;> rw [hs] <;> rfl
    have hnr : ((reg.filter fun p => isStaleTerminal now p.2).map Prod.fst).contains rid = false := by
      by_contra hc
      rw [Bool.not_eq_false] at hc
      obtain ⟨p, hp, hpk⟩ := List.mem_map.mp (List.elem_iff.mp hc)
      obtain ⟨hpin, hpstale⟩ := List.mem_filter.mp hp
      obtain ⟨k, v⟩ := p
      subst hpk
      have hv : v = info := by
        have := lookupR_of_mem_nodup reg _ v hnd hpin
        rw [hl] at this
        exact (Option.some.injEq .. ▸ this).symm
      rw [hv] at hpstale
      rw [isStaleTerminal, hnt] at hpstale
      simp at hpstale
    rw [lookupR_janitorPass, hnr]
    simp only [Bool.false_eq_true, if_false, hl, Option.map_some']
    unfold timeoutStep
    rw [if_pos ⟨by norm_num [PROCESSING_TIMEOUT_SECONDS], hs, hold⟩]
  · intro ht hstale
    have hmem : (rid, info) ∈ reg := mem_of_lookupR _ _ _ hl
    have hfil : (rid, info) ∈ reg.filter fun p => isStaleTerminal now p.2 :=
      List.mem_filter.mpr ⟨hmem, by simp [isStaleTerminal, ht, hstale]⟩
    have hc : ((reg.filter fun p => isStaleTerminal now p.2).map Prod.fst).contains rid :=
      List.elem_iff.mpr (List.mem_map.mpr ⟨(rid, info), hfil, rfl⟩)
    rw [lookupR_janitorPass, if_pos hc]

/-- C5 witness: at time 1000 the old running record "a" (timestamp 0) is
timed out to an error and kept, the stale completed record "b" is removed. -/
theorem C5_witness :
    ((keysR [("a", sampleRunning), ("b", sampleCompleted)]).Nodup ∧
     lookupR [("a", sampleRunning), ("b", sampleCompleted)] "a" = some sampleRunning ∧
     (sampleRunning.status = .processing ∨ sampleRunning.status = .cancelling) ∧
     (1000 : Int) - sampleRunning.timestamp > PROCESSING_TIMEOUT_SECONDS ∧
     lookupR [("a", sampleRunning), ("b", sampleCompleted)] "b" = some sampleCompleted ∧
     sampleCompleted.status.isTerminal = true ∧
     (1000 : Int) - sampleCompleted.timestamp > STALE_REQUEST_THRESHOLD_SECONDS) ∧
    lookupR (janitorPass 1000 [("a", sampleRunning), ("b", sampleCompleted)]) "a" =
      some { sampleRunning with status := .error, result := some (.message timeoutMsg), timestamp := 1000 } ∧
    lookupR (janitorPass 1000 [("a", sampleRunning), ("b", sampleCompleted)]) "b" = none :=
  ⟨⟨by decide, by decide, by decide, by decide, by decide, by decide, by decide⟩,
   (C5_janitor_timeout_and_sweep [("a", sampleRunning), ("b", sampleCompleted)] "a"
      sampleRunning 1000 (by decide) (by decide)).1 (by decide) (by decide),
   (C5_janitor_timeout_and_sweep [("a", sampleRunning), ("b", sampleCompleted)] "b"
      sampleCompleted 1000 (by decide) (by decide)).2 (by decide) (by decide)⟩

/-- Record-level invariant: the result field is set exactly when the
status is terminal. -/
def resultIffTerminal (info : RequestInfo) : Prop :=
  info.result.isSome = info.status.isTerminal

instance (info : RequestInfo) : Decidable (resultIffTerminal info) :=
  inferInstanceAs (Decidable (_ = _))

/-- Registry-level invariant: every stored record satisfies
`resultIffTerminal`. -/
def RegInv (reg : Registry) : Prop :=
  ∀ p ∈ reg, resultIffTerminal p.2

instance (reg : Registry) : Decidable (RegInv reg) :=
  List.decidableBAll _ reg

theorem regInv_setR (reg : Registry) (rid : String) (info : RequestInfo)
    (h : RegInv reg) (hi : resultIffTerminal info) : RegInv (setR reg rid info) := by
  intro p hp
  rcases mem_setR reg rid info p hp with h1 | h1
  · exact h p h1
  · rw [h1]
    exact hi

theorem regInv_delR (reg : Registry) (rid : String) (h : RegInv reg) :
    RegInv (delR reg rid) :=
  fun p hp => h p (mem_delR reg rid p hp)

theorem resultIffTerminal_timeoutStep (now : Int) (info : RequestInfo)
    (h : resultIffTerminal info) : resultIffTerminal (timeoutStep now info) := by
  unfold timeoutStep
  split
  · simp [resultIffTerminal, Status.isTerminal]
  · exact h

theorem regInv_janitorPass (now : Int) (reg : Registry) (h : RegInv reg) :
    RegInv (janitorPass now reg) := by
  intro p hp
  unfold janitorPass at hp
  obtain ⟨q, hq, hpq⟩ := List.mem_map.mp (List.mem_filter.mp hp).1
  rw [← hpq]
  exact resultIffTerminal_timeoutStep now q.2 (h q hq)

theorem regInv_handleFutureCompletion (reg : Registry) (rid : String) (now : Int)
    (h : RegInv reg) : RegInv (handleFutureCompletion rid now reg) := by
  unfold handleFutureCompletion
  cases hl : lookupR reg rid with
  | none => exact h
  | some info =>
      dsimp only
      have hinfo : resultIffTerminal info := h _ (mem_of_lookupR _ _ _ hl)
      by_cases hs : info.status = .processing ∨ info.status = .cancelling
      · rw [if_pos hs]
        refine regInv_setR _ _ _ h ?_
        by_cases hc : (info.future.isCancelled || info.cancel_requested) = true
        · rw [Bool.or_eq_true] at hc
          rcases hc with h1 | h1 <;> simp [h1, resultIffTerminal, Status.isTerminal]
        · simp only [Bool.or_eq_true, not_or, Bool.not_eq_true] at hc
          cases hf : info.future with
          | pending =>
              simpa [hf, FutureState.isCancelled, hc.2, resultIffTerminal] using hinfo
          | running =>
              simpa [hf, FutureState.isCancelled, hc.2, resultIffTerminal] using hinfo
          | doneValue v =>
              cases v <;>
                simp [hf, FutureState.isCancelled, hc.2, resultIffTerminal, Status.isTerminal]
          | doneRaised m =>
              simp [hf, FutureState.isCancelled, hc.2, resultIffTerminal, Status.isTerminal]
          | doneCancelled =>
              simp [hf, FutureState.isCancelled, hc.2, resultIffTerminal, Status.isTerminal]
      · rw [if_neg hs]
        exact h

theorem regInv_cancelRequest (reg : Registry) (rid : String) (now : Int)
    (h : RegInv reg) : RegInv (cancelRequest rid now reg).2 := by
  unfold cancelRequest
  cases hl : lookupR reg rid with
  | none => exact h
  | some info =>
      dsimp only
      have hinfo : resultIffTerminal info := h _ (mem_of_lookupR _ _ _ hl)
      have hres : info.status = .processing → info.result.isSome = false := by
        intro hs
        rw [resultIffTerminal, hs] at hinfo
        exact hinfo
      cases hs : info.status with
      | processing =>
          have hres2 := hres hs
          dsimp only
          split
          · split
            · refine regInv_setR _ _ _ h ?_
              simp [resultIffTerminal, Status.isTerminal, hres2]
            · refine regInv_setR _ _ _ h ?_
              simp [resultIffTerminal, Status.isTerminal, hres2]
          · refine regInv_setR _ _ _ h ?_
            simp [resultIffTerminal, Status.isTerminal, hres2]
      | cancelling => exact h
      | completed => exact h
      | error => exact h
      | cancelled => exact h

theorem regInv_getStatus (reg : Registry) (rid : String) (h : RegInv reg) :
    RegInv (getStatus rid reg).2 := by
  unfold getStatus
  cases hl : lookupR reg rid with
  | none => exact h
  | some info =>
      dsimp only
      cases info.status
      · exact h
      · exact h
      · exact regInv_delR _ _ h
      · exact regInv_delR _ _ h
      · exact regInv_delR _ _ h

theorem regInv_resetCancelStep (now : Int) (reg : Registry) (rid : String)
    (h : RegInv reg) : RegInv (resetCancelStep now reg rid) := by
  unfold resetCancelStep
  cases hl : lookupR reg rid with
  | none => exact h
  | some info =>
      dsimp only
      have hinfo : resultIffTerminal info := h _ (mem_of_lookupR _ _ _ hl)
      have hres : ¬ info.status.isTerminal = true → info.result.isSome = false := by
        intro hs
        rw [Bool.not_eq_true] at hs
        rw [resultIffTerminal] at hinfo
        rw [hinfo]
        exact hs
      cases hs : info.status with
      | processing =>
          have hres2 := hres (by rw [hs]; exact fun hc => by simp [Status.isTerminal] at hc)
          dsimp only
          split
          · split
            · refine regInv_setR _ _ _ h ?_
              simp [resultIffTerminal, Status.isTerminal, hres2]
            · refine regInv_setR _ _ _ h ?_
              simp [resultIffTerminal, Status.isTerminal, hres2]
          · refine regInv_setR _ _ _ h ?_
            simp [resultIffTerminal, Status.isTerminal, hres2]
      | cancelling =>
          have hres2 := hres (by rw [hs]; exact fun hc => by simp [Status.isTerminal] at hc)
          refine regInv_setR _ _ _ h ?_
          simp [resultIffTerminal, Status.isTerminal, hs, hres2]
      | completed => exact h
      | error => exact h
      | cancelled => exact h

theorem regInv_foldl_resetCancelStep (now : Int) (ids : List String) (reg : Registry)
    (h : RegInv reg) : RegInv (ids.foldl (resetCancelStep now) reg) := by
  induction ids generalizing reg with
  | nil => exact h
  | cons hd tl ih => exact ih _ (regInv_resetCancelStep now reg hd h)

theorem regInv_chatSubmit (rid : String) (body : Option SubmitData) (now : Int)
    (fut : FutureState) (reg : Registry) (h : RegInv reg) :
    RegInv (chatSubmit rid body now fut reg).2 := by
  unfold chatSubmit
  cases body with
  | none => exact h
  | some data =>
      dsimp only
      split
      · exact h
      · split
        · exact h
        · refine regInv_setR _ _ _ h ?_
          simp [resultIffTerminal, Status.isTerminal]

theorem regInv_recordSubmit (rid : String) (body : Option SubmitData) (now : Int)
    (fut : FutureState) (reg : Registry) (h : RegInv reg) :
    RegInv (recordSubmit rid body now fut reg).2 := by
  unfold recordSubmit
  cases body with
  | none => exact h
  | some data =>
      dsimp only
      split
      · exact h
      · split
        · exact h
        · refine regInv_setR _ _ _ h ?_
          simp [resultIffTerminal, Status.isTerminal]

/-- C6: every registry operation preserves the invariant that a record's
result is set exactly when its status is terminal; in addition, a valid
submission registers its record with status processing, cancel_requested
false, an absent result and timestamp now.  The transition to cancelling
(inside cancel_request and reset) leaves the result field untouched and is
covered by the preservation of the invariant, and every transition into
completed/error/cancelled (callback and janitor timeout) stores a result,
as the invariant's preservation through those operations shows. -/
theorem C6_result_iff_terminal_invariant (reg : Registry) (hinv : RegInv reg) :
    (∀ rid body now fut, RegInv (chatSubmit rid body now fut reg).2) ∧
    (∀ rid body now fut, RegInv (recordSubmit rid body now fut reg).2) ∧
    (∀ rid now, RegInv (handleFutureCompletion rid now reg)) ∧
    (∀ rid now, RegInv (cancelRequest rid now reg).2) ∧
    (∀ rid, RegInv (getStatus rid reg).2) ∧
    (∀ now, RegInv (janitorPass now reg)) ∧
    (∀ uid now ctxs, RegInv (resetUserContext uid now reg ctxs).1) ∧
    (∀ rid data now fut, truthy data.user_id = true → truthy data.message = true →
      lookupR (chatSubmit rid (some data) now fut reg).2 rid =
        some { future := fut, status := .processing, result := none, cancel_requested := false, user_id := data.user_id.getD "", timestamp := now }) := by
  refine ⟨fun rid body now fut => regInv_chatSubmit rid body now fut reg hinv,
    fun rid body now fut => regInv_recordSubmit rid body now fut reg hinv,
    fun rid now => regInv_handleFutureCompletion reg rid now hinv,
    fun rid now => regInv_cancelRequest reg rid now hinv,
    fun rid => regInv_getStatus reg rid hinv,
    fun now => regInv_janitorPass now reg hinv,
    fun uid now ctxs => ?_, fun rid data now fut hu hm => ?_⟩
  · unfold resetUserContext
    exact regInv_foldl_resetCancelStep _ _ _ hinv
  · simp [chatSubmit, hu, hm, lookupR_setR_self]

/-- C6 witness: the invariant holds on a concrete registry and is
preserved by concrete calls of the lifecycle operations; a concrete valid
chat submission registers the expected fresh record. -/
theorem C6_witness :
    RegInv [("r1", sampleCompleted)] ∧
    (RegInv (cancelRequest "r1" 3 [("r1", sampleCompleted)]).2 ∧
     RegInv (handleFutureCompletion "r1" 3 [("r1", sampleCompleted)]) ∧
     RegInv (janitorPass 3 [("r1", sampleCompleted)]) ∧
     RegInv (getStatus "r1" [("r1", sampleCompleted)]).2 ∧
     lookupR (chatSubmit "r2" (some { user_id := some "nurse1", message := some "hi" }) 4 .pending [("r1", sampleCompleted)]).2 "r2" =
       some { future := .pending, status := .processing, result := none, cancel_requested := false, user_id := "nurse1", timestamp := 4 }) := by
  have h := C6_result_iff_terminal_invariant [("r1", sampleCompleted)] (by decide)
  refine ⟨by decide, h.2.2.2.1 "r1" 3, h.2.2.1 "r1" 3, h.2.2.2.2.2.1 3,
    h.2.2.2.2.1 "r1", ?_⟩
  have h8 := h.2.2.2.2.2.2.2 "r2" { user_id := some "nurse1", message := some "hi" }
    4 .pending (by decide) (by decide)
  simpa using h8

/-- C7: when the completion callback runs for a non-cancelled unit (the
future was not cancelled and cancel_requested is false), a returned dict
carrying an "error" key moves the record to error storing that message,
and a raised exception is caught and moves the record to error with the
generic internal-error message.  The embedded callback is a total function
into a registry state, so no exception escapes it: both failure shapes end
as a stored error record. -/
theorem C7_callback_error_handling (reg : Registry) (rid : String)
    (info : RequestInfo) (now : Int)
    (hl : lookupR reg rid = some info)
    (hs : info.status = .processing ∨ info.status = .cancelling)
    (hnc : info.cancel_requested = false) :
    (∀ m, info.future = .doneValue (.errDict m) →
      lookupR (handleFutureCompletion rid now reg) rid =
        some { info with status := .error, result := some (.message m), timestamp := now }) ∧
    (∀ m, info.future = .doneRaised m →
      lookupR (handleFutureCompletion rid now reg) rid =
        some { info with status := .error, result := some (.message ("Internal server error during task execution: " ++ m)), timestamp := now }) := by
  constructor <;> intro m hf <;>
    · simp only [handleFutureCompletion, hl]
      rw [if_pos hs]
      simp [hf, hnc, FutureState.isCancelled, lookupR_setR_self]

/-- C7 witness: one record whose unit returned an error dict and one whose
unit raised both end as error with the corresponding stored message. -/
theorem C7_witness :
    (lookupR [("r1", { sampleDone with future := .doneValue (.errDict "missing required field") })] "r1" =
        some { sampleDone with future := .doneValue (.errDict "missing required field") } ∧
     lookupR [("r2", { sampleDone with future := .doneRaised "boom" })] "r2" =
        some { sampleDone with future := .doneRaised "boom" } ∧
     sampleDone.status = .processing ∧ sampleDone.cancel_requested = false) ∧
    lookupR (handleFutureCompletion "r1" 7
        [("r1", { sampleDone with future := .doneValue (.errDict "missing required field") })]) "r1" =
      some { sampleDone with future := .doneValue (.errDict "missing required field"), status := .error, result := some (.message "missing required field"), timestamp := 7 } ∧
    lookupR (handleFutureCompletion "r2" 7
        [("r2", { sampleDone with future := .doneRaised "boom" })]) "r2" =
      some { sampleDone with future := .doneRaised "boom", status := .error, result := some (.message ("Internal server error during task execution: " ++ "boom")), timestamp := 7 } :=
  ⟨⟨by decide, by decide, by decide, by decide⟩,
    (C7_callback_error_handling
        [("r1", { sampleDone with future := .doneValue (.errDict "missing required field") })]
        "r1" { sampleDone with future := .doneValue (.errDict "missing required field") } 7
        (by decide) (by decide) (by decide)).1 "missing required field" (by decide),
    (C7_callback_error_handling
        [("r2", { sampleDone with future := .doneRaised "boom" })]
        "r2" { sampleDone with future := .doneRaised "boom" } 7
        (by decide) (by decide) (by decide)).2 "boom" (by decide)⟩

/-- C8: a chat or record submission whose user_id or message field is
missing (or empty, which Python treats as falsy) is rejected with the 400
client-error response before any work is scheduled: the registry is
unchanged, no record is created, the response carries no request id, and
the outcome does not depend on the unit of work that would have been
scheduled. -/
theorem C8_validation_rejected_before_registration (rid : String)
    (data : SubmitData) (now : Int) (fut : FutureState) (reg : Registry)
    (h : truthy data.user_id = false ∨ truthy data.message = false) :
    ((chatSubmit rid (some data) now fut reg).1.code = 400 ∧
     (chatSubmit rid (some data) now fut reg).2 = reg ∧
     (∀ r, (chatSubmit rid (some data) now fut reg).1 ≠ .accepted r) ∧
     (∀ fut2, chatSubmit rid (some data) now fut2 reg =
        chatSubmit rid (some data) now fut reg)) ∧
    ((recordSubmit rid (some data) now fut reg).1.code = 400 ∧
     (recordSubmit rid (some data) now fut reg).2 = reg ∧
     (∀ r, (recordSubmit rid (some data) now fut reg).1 ≠ .accepted r) ∧
     (∀ fut2, recordSubmit rid (some data) now fut2 reg =
        recordSubmit rid (some data) now fut reg)) := by
  have hchat : ∃ msg, ∀ fut2, chatSubmit rid (some data) now fut2 reg =
      (.clientError msg, reg) := by
    rcases h with h | h
    · exact ⟨"user_id is required", fun fut2 => by simp [chatSubmit, h]⟩
    · by_cases hu : truthy data.user_id = true
      · exact ⟨"message is required", fun fut2 => by simp [chatSubmit, hu, h]⟩
      · rw [Bool.not_eq_true] at hu
        exact ⟨"user_id is required", fun fut2 => by simp [chatSubmit, hu]⟩
  have hrec : ∃ msg, ∀ fut2, recordSubmit rid (some data) now fut2 reg =
      (.clientError msg, reg) := by
    rcases h with h | h
    · exact ⟨"user_id is required", fun fut2 => by simp [recordSubmit, h]⟩
    · by_cases hu : truthy data.user_id = true
      · exact ⟨"message (note content) is required", fun fut2 => by simp [recordSubmit, hu, h]⟩
      · rw [Bool.not_eq_true] at hu
        exact ⟨"user_id is required", fun fut2 => by simp [recordSubmit, hu]⟩
  obtain ⟨m1, h1⟩ := hchat
  obtain ⟨m2, h2⟩ := hrec
  refine ⟨⟨?_, ?_, ?_, ?_⟩, ⟨?_, ?_, ?_, ?_⟩⟩
  · rw [h1 fut]
    rfl
  · rw [h1 fut]
  · intro r
    rw [h1 fut]
    simp
  · intro fut2
    rw [h1 fut, h1 fut2]
  · rw [h2 fut]
    rfl
  · rw [h2 fut]
  · intro r
    rw [h2 fut]
    simp
  · intro fut2
    rw [h2 fut, h2 fut2]

/-- C8 witness: a submission with a missing user_id is rejected with 400
and leaves the concrete registry unchanged. -/
theorem C8_witness :
    (truthy ({ user_id := none, message := some "hi" } : SubmitData).user_id = false ∨
     truthy ({ user_id := none, message := some "hi" } : SubmitData).message = false) ∧
    ((chatSubmit "r9" (some { user_id := none, message := some "hi" }) 0 .pending [("r1", sampleCompleted)]).1.code = 400 ∧
     (chatSubmit "r9" (some { user_id := none, message := some "hi" }) 0 .pending [("r1", sampleCompleted)]).2 = [("r1", sampleCompleted)] ∧
     (∀ r, (chatSubmit "r9" (some { user_id := none, message := some "hi" }) 0 .pending [("r1", sampleCompleted)]).1 ≠ .accepted r) ∧
     (∀ fut2, chatSubmit "r9" (some { user_id := none, message := some "hi" }) 0 fut2 [("r1", sampleCompleted)] =
        chatSubmit "r9" (some { user_id := none, message := some "hi" }) 0 .pending [("r1", sampleCompleted)])) ∧
    ((recordSubmit "r9" (some { user_id := none, message := some "hi" }) 0 .pending [("r1", sampleCompleted)]).1.code = 400 ∧
     (recordSubmit "r9" (some { user_id := none, message := some "hi" }) 0 .pending [("r1", sampleCompleted)]).2 = [("r1", sampleCompleted)] ∧
     (∀ r, (recordSubmit "r9" (some { user_id := none, message := some "hi" }) 0 .pending [("r1", sampleCompleted)]).1 ≠ .accepted r) ∧
     (∀ fut2, recordSubmit "r9" (some { user_id := none, message := some "hi" }) 0 fut2 [("r1", sampleCompleted)] =
        recordSubmit "r9" (some { user_id := none, message := some "hi" }) 0 .pending [("r1", sampleCompleted)])) :=
  ⟨by decide,
    (C8_validation_rejected_before_registration "r9" { user_id := none, message := some "hi" }
      0 .pending [("r1", sampleCompleted)] (by decide)).1,
    (C8_validation_rejected_before_registration "r9" { user_id := none, message := some "hi" }
      0 .pending [("r1", sampleCompleted)] (by decide)).2⟩

theorem lookupC_setC_self (ctxs : Contexts) (uid : String) (ctx : UserContext) :
    lookupC (setC ctxs uid ctx) uid = some ctx := by
  induction ctxs with
  | nil => simp [setC, lookupC]
  | cons hd tl ih =>
      obtain ⟨k, v⟩ := hd
      by_cases h : k = uid <;> simp [setC, lookupC, h, ih]

/-- The reset-context cancellation step either leaves the registry alone
or rewrites exactly the key it was applied to. -/
theorem resetCancelStep_cases (now : Int) (reg : Registry) (rid : String) :
    resetCancelStep now reg rid = reg ∨
      ∃ v, resetCancelStep now reg rid = setR reg rid v := by
  unfold resetCancelStep
  cases lookupR reg rid with
  | none => exact Or.inl rfl
  | some info =>
      dsimp only
      cases info.status
      · dsimp only
        split
        · split
          · exact Or.inr ⟨_, rfl⟩
          · exact Or.inr ⟨_, rfl⟩
        · exact Or.inr ⟨_, rfl⟩
      · exact Or.inr ⟨_, rfl⟩
      · exact Or.inl rfl
      · exact Or.inl rfl
      · exact Or.inl rfl

theorem lookupR_resetCancelStep_other (now : Int) (reg : Registry)
    (rid rid' : String) (h : rid ≠ rid') :
    lookupR (resetCancelStep now reg rid') rid = lookupR reg rid := by
  rcases resetCancelStep_cases now reg rid' with hc | ⟨v, hc⟩
  · rw [hc]
  · rw [hc, lookupR_setR_ne _ _ _ _ h]

/-- Applying the reset-context cancellation step to its own key sets
cancel_requested whenever the record is processing or cancelling. -/
theorem resetCancelStep_sets_flag (now : Int) (reg : Registry) (rid : String)
    (info : RequestInfo) (hl : lookupR reg rid = some info)
    (hs : info.status = .processing ∨ info.status = .cancelling) :
    ∃ info', lookupR (resetCancelStep now reg rid) rid = some info' ∧
      info'.cancel_requested = true := by
  unfold resetCancelStep
  rw [hl]
  dsimp only
  rcases hs with hs | hs <;> rw [hs] <;> dsimp only
  · split
    · split
      · exact ⟨_, lookupR_setR_self _ _ _, rfl⟩
      · exact ⟨_, lookupR_setR_self _ _ _, rfl⟩
    · exact ⟨_, lookupR_setR_self _ _ _, rfl⟩
  · exact ⟨_, lookupR_setR_self _ _ _, rfl⟩

/-- The reset-context cancellation step never clears cancel_requested. -/
theorem resetCancelStep_keeps_flag (now : Int) (reg : Registry)
    (rid rid' : String) (info : RequestInfo)
    (hl : lookupR reg rid = some info) (hf : info.cancel_requested = true) :
    ∃ info', lookupR (resetCancelStep now reg rid') rid = some info' ∧
      info'.cancel_requested = true := by
  by_cases he : rid = rid'
  · subst he
    unfold resetCancelStep
    rw [hl]
    dsimp only
    cases info.status
    · dsimp only
      split
      · split
        · exact ⟨_, lookupR_setR_self _ _ _, rfl⟩
        · exact ⟨_, lookupR_setR_self _ _ _, rfl⟩
      · exact ⟨_, lookupR_setR_self _ _ _, rfl⟩
    · exact ⟨_, lookupR_setR_self _ _ _, rfl⟩
    · exact ⟨info, hl, hf⟩
    · exact ⟨info, hl, hf⟩
    · exact ⟨info, hl, hf⟩
  · rw [lookupR_resetCancelStep_other now reg rid rid' he]
    exact ⟨info, hl, hf⟩

theorem foldl_resetCancelStep_keeps_flag (now : Int) (ids : List String)
    (reg : Registry) (rid : String) (info : RequestInfo)
    (hl : lookupR reg rid = some info) (hf : info.cancel_requested = true) :
    ∃ info', lookupR (ids.foldl (resetCancelStep now) reg) rid = some info' ∧
      info'.cancel_requested = true := by
  induction ids generalizing reg info with
  | nil => exact ⟨info, hl, hf⟩
  | cons hd tl ih =>
      obtain ⟨info1, hl1, hf1⟩ := resetCancelStep_keeps_flag now reg rid hd info hl hf
      exact ih _ _ hl1 hf1

theorem foldl_resetCancelStep_sets_flag (now : Int) (ids : List String)
    (reg : Registry) (rid : String) (info : RequestInfo)
    (hmem : rid ∈ ids) (hl : lookupR reg rid = some info)
    (hs : info.status = .processing ∨ info.status = .cancelling) :
    ∃ info', lookupR (ids.foldl (resetCancelStep now) reg) rid = some info' ∧
      info'.cancel_requested = true := by
  induction ids generalizing reg info with
  | nil => simp at hmem
  | cons hd tl ih =>
      rw [List.foldl_cons]
      by_cases he : hd = rid
      · subst he
        obtain ⟨info1, hl1, hf1⟩ := resetCancelStep_sets_flag now reg hd info hl hs
        exact foldl_resetCancelStep_keeps_flag now tl _ hd info1 hl1 hf1
      · rcases List.mem_cons.mp hmem with h1 | h1
        · exact absurd h1.symm he
        · have hl' : lookupR (resetCancelStep now reg hd) rid = some info := by
            rw [lookupR_resetCancelStep_other now reg rid hd (fun hh => he hh.symm)]
            exact hl
          exact ih _ _ h1 hl' hs

/-- C9: the bulk reset for an owner sets cancel_requested on every record
of that owner whose status is processing or cancelling, and replaces the
owner's existing conversation context with the empty one (no patient id,
no patient details, no summarized notes, empty chat history).  The
operation is a function of the current state only — it never waits on the
affected requests. -/
theorem C9_reset_cancels_live_and_empties_context (reg : Registry)
    (ctxs : Contexts) (uid : String) (now : Int) :
    (∀ rid info, lookupR reg rid = some info → info.user_id = uid →
      (info.status = .processing ∨ info.status = .cancelling) →
      ∃ info', lookupR (resetUserContext uid now reg ctxs).1 rid = some info' ∧
        info'.cancel_requested = true) ∧
    ((lookupC ctxs uid).isSome = true →
      lookupC (resetUserContext uid now reg ctxs).2 uid = some emptyContext) := by
  constructor
  · intro rid info hl hu hs
    have hmem : rid ∈ ((reg.filter fun p =>
        p.2.user_id = uid ∧ (p.2.status = .processing ∨ p.2.status = .cancelling)).map
        Prod.fst) :=
      List.mem_map.mpr ⟨(rid, info),
        List.mem_filter.mpr ⟨mem_of_lookupR _ _ _ hl, by simp [hu, hs]⟩, rfl⟩
    unfold resetUserContext
    exact foldl_resetCancelStep_sets_flag now _ reg rid info hmem hl hs
  · intro hc
    unfold resetUserContext
    dsimp only
    rw [if_pos hc]
    exact lookupC_setC_self ctxs uid emptyContext

/-- C9 witness: resetting owner nurse1 while two of their requests are
processing marks both with cancel intent and empties the stored context. -/
theorem C9_witness :
    (lookupR [("r1", samplePending), ("r2", sampleRunning)] "r1" = some samplePending ∧
     samplePending.user_id = "nurse1" ∧
     (samplePending.status = .processing ∨ samplePending.status = .cancelling) ∧
     lookupR [("r1", samplePending), ("r2", sampleRunning)] "r2" = some sampleRunning ∧
     sampleRunning.user_id = "nurse1" ∧
     (sampleRunning.status = .processing ∨ sampleRunning.status = .cancelling) ∧
     (lookupC [("nurse1", { patient_id := some "p7", patient_details := some "d", summarized_notes := some "s", chat_history := [("q", "a")] })] "nurse1").isSome = true) ∧
    ((∃ info', lookupR (resetUserContext "nurse1" 5 [("r1", samplePending), ("r2", sampleRunning)] [("nurse1", { patient_id := some "p7", patient_details := some "d", summarized_notes := some "s", chat_history := [("q", "a")] })]).1 "r1" = some info' ∧ info'.cancel_requested = true) ∧
     (∃ info', lookupR (resetUserContext "nurse1" 5 [("r1", samplePending), ("r2", sampleRunning)] [("nurse1", { patient_id := some "p7", patient_details := some "d", summarized_notes := some "s", chat_history := [("q", "a")] })]).1 "r2" = some info' ∧ info'.cancel_requested = true) ∧
     lookupC (resetUserContext "nurse1" 5 [("r1", samplePending), ("r2", sampleRunning)] [("nurse1", { patient_id := some "p7", patient_details := some "d", summarized_notes := some "s", chat_history := [("q", "a")] })]).2 "nurse1" = some emptyContext) :=
  ⟨⟨by decide, by decide, by decide, by decide, by decide, by decide, by decide⟩,
    (C9_reset_cancels_live_and_empties_context [("r1", samplePending), ("r2", sampleRunning)]
        [("nurse1", { patient_id := some "p7", patient_details := some "d", summarized_notes := some "s", chat_history := [("q", "a")] })]
        "nurse1" 5).1 "r1" samplePending (by decide) (by decide) (by decide),
    (C9_reset_cancels_live_and_empties_context [("r1", samplePending), ("r2", sampleRunning)]
        [("nurse1", { patient_id := some "p7", patient_details := some "d", summarized_notes := some "s", chat_history := [("q", "a")] })]
        "nurse1" 5).1 "r2" sampleRunning (by decide) (by decide) (by decide),
    (C9_reset_cancels_live_and_empties_context [("r1", samplePending), ("r2", sampleRunning)]
        [("nurse1", { patient_id := some "p7", patient_details := some "d", summarized_notes := some "s", chat_history := [("q", "a")] })]
        "nurse1" 5).2 (by decide)⟩

/-- C10: request_cancel on a processing record whose future is already
done (the completion callback has not run yet) answers 400 with the
already-finished message, yet it has set cancel_requested; when the
completion callback then runs it observes the flag and finalizes the
record as cancelled with the cancellation message, discarding the unit's
actual outcome (the hypothesis covers a successful value, a raised
exception, or a cancelled future alike). -/
theorem C10_cancel_after_done_discards_result (reg : Registry) (rid : String)
    (info : RequestInfo) (now now2 : Int)
    (hl : lookupR reg rid = some info)
    (hp : info.status = .processing)
    (hd : info.future.done = true) :
    cancelRequest rid now reg =
      (⟨400, "Cancellation requested, but task already finished with final status processing."⟩,
        setR reg rid { info with cancel_requested := true }) ∧
    lookupR (handleFutureCompletion rid now2 (cancelRequest rid now reg).2) rid =
      some { info with cancel_requested := true, status := .cancelled, result := some (.message cancelledMsg), timestamp := now2 } := by
  have h1 : cancelRequest rid now reg =
      (⟨400, "Cancellation requested, but task already finished with final status processing."⟩,
        setR reg rid { info with cancel_requested := true }) := by
    simp [cancelRequest, hl, hp, hd]
  refine ⟨h1, ?_⟩
  rw [h1]
  have hlook := lookupR_setR_self reg rid { info with cancel_requested := true }
  simp only [handleFutureCompletion, hlook]
  rw [if_pos (Or.inl hp)]
  simp [lookupR_setR_self]

/-- C10 witness: the concrete record with a finished successful future is
reported as already finished by cancel, gets the flag set, and the
callback then stores cancelled, discarding the successful value. -/
theorem C10_witness :
    (lookupR [("r1", sampleDone)] "r1" = some sampleDone ∧
     sampleDone.status = .processing ∧
     sampleDone.future.done = true) ∧
    (cancelRequest "r1" 1 [("r1", sampleDone)] =
      (⟨400, "Cancellation requested, but task already finished with final status processing."⟩,
        setR [("r1", sampleDone)] "r1" { sampleDone with cancel_requested := true }) ∧
     lookupR (handleFutureCompletion "r1" 2 (cancelRequest "r1" 1 [("r1", sampleDone)]).2) "r1" =
       some { sampleDone with cancel_requested := true, status := .cancelled, result := some (.message cancelledMsg), timestamp := 2 }) :=
  ⟨⟨by decide, by decide, by decide⟩,
    C10_cancel_after_done_discards_result [("r1", sampleDone)] "r1" sampleDone 1 2
      (by decide) (by decide) (by decide)⟩

end Pulse
